import Mathlib

/-!
Verification of the terminal-game rendering core (Basic-Rust-Game).

The display pipeline (src/api/display/display_controller.rs), the game loop
(src/app.rs) and the entities (src/entities/*.rs) are embedded shallowly.
Support modules that are not among the provided sources (the Point, Element,
Map, Layout, DrawableState, Spawnable and GameState modules, and the terminal
control boundary) are modelled from the specification; each such definition
carries a doc comment saying so.

Machine integers: the display layer works in u32 (terminal sizes come from a
u16 query and are widened); u32 arithmetic is modelled on Nat with explicit
wrap-around modulo 2^32.  Entity locations and velocities are i64 and are
modelled on Int.  Rust indexing panics are modelled as an explicit `panicked`
outcome, and fallible calls return an error-carrying outcome that keeps the
mutated receiver state, mirroring `&mut self` methods whose partial writes
survive an early `Err` return.
-/

namespace Game

/-- 2^32, the u32 wrap-around modulus. -/
def U32 : Nat := 4294967296

/-- Wrapping u32 subtraction on Nat. -/
def u32sub (a b : Nat) : Nat := (a + U32 - b % U32) % U32

/-- Modelled from the spec: Point is the integer 2D vector type with axes
x/width and y/height; here instantiated at u32 (Nat with wrap) as used by the
display layer. Arithmetic operators act component-wise, no implicit clamping. -/
structure Point where
  x : Nat
  y : Nat
deriving DecidableEq, Repr

def Point.new (x y : Nat) : Point := ⟨x, y⟩

/-- Component-wise addition on the x axis (u32 wrap). -/
def Point.addX (p : Point) (d : Nat) : Point := ⟨(p.x + d) % U32, p.y⟩

/-- Component-wise addition on the y axis (u32 wrap). -/
def Point.addY (p : Point) (d : Nat) : Point := ⟨p.x, (p.y + d) % U32⟩

/-- Component-wise addition (u32 wrap). -/
def Point.add (a b : Point) : Point := ⟨(a.x + b.x) % U32, (a.y + b.y) % U32⟩

/-- Component-wise subtraction (u32 wrap). -/
def Point.sub (a b : Point) : Point := ⟨u32sub a.x b.x, u32sub a.y b.y⟩

/-- Component-wise division. -/
def Point.div (a b : Point) : Point := ⟨a.x / b.x, a.y / b.y⟩

/-- Modelled from the spec: Point instantiated at i64 (signed world-space
locations and velocities), modelled on Int; fields are width/height. -/
structure PointI where
  width : Int
  height : Int
deriving DecidableEq, Repr

def PointI.new (w h : Int) : PointI := ⟨w, h⟩

/-- Modelled from the spec: axis-wise mutation helper; the amount comes from
u32-valued layout arithmetic and is widened into the signed coordinate. -/
def PointI.add_width (p : PointI) (amount : Nat) : PointI :=
  ⟨p.width + amount, p.height⟩

/-- Modelled from the spec: axis-wise mutation helper on the height axis. -/
def PointI.add_height (p : PointI) (amount : Nat) : PointI :=
  ⟨p.width, p.height + amount⟩

/-- Modelled from the spec: the crossterm color type, reduced to the variants
the sources mention. -/
inductive Color where
  | Black
  | Blue
  | Green
  | White
  | Red
  | Yellow
deriving DecidableEq, Repr

/-- Modelled from the spec: process-wide default foreground color. -/
def DEFAULT_FOREGROUND : Color := Color.White

/-- Modelled from the spec: process-wide default background color. -/
def DEFAULT_BACKGROUND : Color := Color.Black

/-- Modelled from the spec: a single renderable cell, a glyph plus
foreground/background color; an immutable value type. -/
structure Element where
  value : Char
  foreground : Color
  background : Color
deriving DecidableEq, Repr

def Element.new (value : Char) (foreground background : Color) : Element :=
  ⟨value, foreground, background⟩

/-- Modelled from the spec: the default (blank) Element. -/
def Element.default : Element := ⟨' ', DEFAULT_FOREGROUND, DEFAULT_BACKGROUND⟩

/-- Modelled from the spec: the full-screen cell buffer, a 2D grid of optional
Elements sized to the physical terminal (rows of columns). -/
structure Map where
  map : List (List (Option Element))
deriving DecidableEq, Repr

/-- Modelled from the spec: the Map is created once from the detected terminal
size, all cells None; screen_size.x is the column count, screen_size.y the row
count. -/
def Map.new (screen_size : Point) : Map :=
  ⟨List.replicate screen_size.y (List.replicate screen_size.x none)⟩

/-- Buffer cell lookup: outer Option is index validity, inner Option is the
stored cell. -/
def Map.getCell (m : Map) (q : Point) : Option (Option Element) :=
  (m.map.get? q.y).bind (fun row => row.get? q.x)

/-- Modelled from the spec: the error kinds of the display layer
(display_controller_error.rs is not among the provided sources). -/
inductive DisplayControllerError where
  | DisplayTooSmallForDimensions
  | PositionOutOfRange
  | TerminalError
deriving DecidableEq, Repr

/-- Modelled from the spec: the state of the terminal control boundary that
the core toggles (raw input mode, alternate screen, cursor visibility). -/
structure Terminal where
  raw_mode : Bool
  alternate_screen : Bool
  cursor_hidden : Bool
deriving DecidableEq, Repr

/-- Modelled from the spec: crossterm enable_raw_mode. -/
def enable_raw_mode (t : Terminal) : Terminal := { t with raw_mode := true }

/-- DisplayController::setup queues EnterAlternateScreen and Hide. -/
def setupTerminal (t : Terminal) : Terminal :=
  { t with alternate_screen := true, cursor_hidden := true }

/-- DisplayController::close: disable raw mode, leave the alternate screen,
show the cursor. -/
def closeTerminal (_t : Terminal) : Terminal := ⟨false, false, false⟩

/-- The full-screen display controller state (the stdout target itself is the
terminal boundary and is modelled by Terminal above). -/
structure DisplayController where
  dimensions : Point
  offset : Point
  screen_size : Point
  display : Map
  default_element : Element
deriving DecidableEq, Repr

inductive Direction where
  | Vertical
  | Horizontal
deriving DecidableEq, Repr

/-- Outcome of a drawing method on `&mut self`: either the method returned
(with the possibly mutated receiver and an optional error), or it panicked
(out-of-bounds row indexing). -/
inductive DrawOutcome where
  | res (c : DisplayController) (e : Option DisplayControllerError)
  | panicked
deriving DecidableEq, Repr

/-- Sequencing of draw calls with the ? operator: an error or panic
short-circuits, keeping the receiver state reached so far. -/
def DrawOutcome.andThen (r : DrawOutcome) (f : DisplayController → DrawOutcome) :
    DrawOutcome :=
  match r with
  | .res c none => f c
  | .res c (some e) => .res c (some e)
  | .panicked => .panicked

def BORDER_ELEMENT : Element := Element.new 'x' Color.Black Color.Black

def PADDING : Point := Point.new 10 10

/-- DisplayController::draw_item: bounds check in play-area-local coordinates
against `dimensions`, then offset translation; the row lookup uses a checked
get (second PositionOutOfRange branch), the column access is an unchecked
index (a panic when out of range). Both Some/None branches of the final write
store Some(element). -/
def DisplayController.draw_item (c : DisplayController) (element : Element)
    (position : Point) : DrawOutcome :=
  if position.x ≥ c.dimensions.x ∨ position.y ≥ c.dimensions.y then
    .res c (some .PositionOutOfRange)
  else
    match c.display.map.get? (c.offset.add position).y with
    | none => .res c (some .PositionOutOfRange)
    | some row =>
      if (c.offset.add position).x < row.length then
        .res { c with
                display :=
                  ⟨c.display.map.set (c.offset.add position).y
                    (row.set (c.offset.add position).x (some element))⟩ } none
      else
        .panicked

/-- The cell targeted by iteration `i` of draw_line's loop. -/
def lineCell (start_position : Point) (direction : Direction) (i : Nat) : Point :=
  match direction with
  | .Horizontal => start_position.addX i
  | .Vertical => start_position.addY i

/-- The loop body of DisplayController::draw_line, iterating over the given
indices in order and stopping at the first error or panic. -/
def DisplayController.draw_line_aux (element : Element) (start_position : Point)
    (direction : Direction) : DisplayController → List Nat → DrawOutcome
  | c, [] => .res c none
  | c, i :: rest =>
    match DisplayController.draw_item c element (lineCell start_position direction i) with
    | .res c' none => DisplayController.draw_line_aux element start_position direction c' rest
    | .res c' (some e) => .res c' (some e)
    | .panicked => .panicked

/-- DisplayController::draw_line: writes `len` consecutive cells along one
axis starting at `start_position` (loop over 0..len). -/
def DisplayController.draw_line (c : DisplayController) (element : Element)
    (len : Nat) (start_position : Point) (direction : Direction) : DrawOutcome :=
  DisplayController.draw_line_aux element start_position direction c (List.range len)

/-- DisplayController::draw_rect: four chained draw_line calls
(top, bottom, left, right). -/
def DisplayController.draw_rect (c : DisplayController)
    (start_position dimensions : Point) (element : Element) : DrawOutcome :=
  (c.draw_line element dimensions.x start_position .Horizontal).andThen fun c1 =>
    (c1.draw_line element dimensions.x (start_position.addY (u32sub dimensions.y 1))
        .Horizontal).andThen fun c2 =>
      (c2.draw_line element dimensions.y start_position .Vertical).andThen fun c3 =>
        c3.draw_line element dimensions.y (start_position.addX (u32sub dimensions.x 1))
          .Vertical

/-- DisplayController::draw_borders draws the play-area border rectangle. -/
def DisplayController.draw_borders (c : DisplayController) : DrawOutcome :=
  c.draw_rect (Point.new 0 0) c.dimensions (Element.new 'x' Color.Blue Color.Green)

/-- DisplayController::print_display only queues terminal writes (cursor
reset plus every buffer cell); it does not change the buffer, and terminal
I O failures are outside the model, so it is the successful identity. -/
def DisplayController.print_display (c : DisplayController) : DrawOutcome :=
  .res c none

/-- Result of DisplayController::new: a controller, a returned error, or a
panic escaping the constructor. -/
inductive NewResult where
  | ok (c : DisplayController)
  | err (e : DisplayControllerError)
  | panicked
deriving DecidableEq, Repr

/-- DisplayController::new. Queries the terminal size (columns, rows) - the
query itself is a parameter here. Note the size check compares dimensions.x
against rows and dimensions.y against columns, exactly as the source does.
On a passed check: builds the map of the full screen, computes the centering
offset (screen_size - dimensions) / (2,2) in u32 arithmetic, enters the
alternate screen (setup), draws the borders and prints once. -/
def initController (columns rows : Nat) (dimensions : Point) : DisplayController :=
  { display := Map.new (Point.new columns rows)
    dimensions := dimensions
    default_element := Element.default
    screen_size := Point.new columns rows
    offset := ((Point.new columns rows).sub dimensions).div (Point.new 2 2) }

def DisplayController.new (t : Terminal) (columns rows : Nat)
    (dimensions : Point) : NewResult × Terminal :=
  if dimensions.x > rows ∨ dimensions.y > columns then
    (.err .DisplayTooSmallForDimensions, t)
  else
    match ((initController columns rows dimensions).draw_borders).andThen
        DisplayController.print_display with
    | .res c none => (.ok c, setupTerminal t)
    | .res _ (some e) => (.err e, setupTerminal t)
    | .panicked => (.panicked, setupTerminal t)

/-- Modelled from the spec: the spec's construction-time size check pairs the
axes the natural way, width against columns and height against rows; kept as
a separate definition to compare with the source's check. -/
def specTooSmall (columns rows : Nat) (dimensions : Point) : Bool :=
  decide (dimensions.x > columns ∨ dimensions.y > rows)

/-- Result of App::new. -/
inductive AppNewResult where
  | ok (c : DisplayController)
  | err (e : DisplayControllerError)
  | panicked
deriving DecidableEq, Repr

/-- App::new: enables raw mode, constructs the DisplayController, and on a
returned construction error calls DisplayController::close before returning
the error; a panic escaping the constructor propagates with no teardown. -/
def App.new (t : Terminal) (columns rows : Nat) (dimensions : Point) :
    AppNewResult × Terminal :=
  let t1 := enable_raw_mode t
  match DisplayController.new t1 columns rows dimensions with
  | (.ok c, t2) => (.ok c, t2)
  | (.err e, t2) => (.err e, closeTerminal t2)
  | (.panicked, t2) => (.panicked, t2)

/-- What the caller-supplied per-frame closure does in one iteration of
App::run: returns Ok, returns an error (propagated by ? out of the loop
closure), or panics. -/
inductive FrameOutcome where
  | ok
  | err (e : DisplayControllerError)
  | panics
deriving DecidableEq, Repr

/-- One iteration of App::run's while loop, as observed at the control-flow
level: either the bounded poll returned the Esc key (close and break), or a
frame runs with the given closure outcome. Buffer resets, event recording and
the per-frame border draw and print are terminal-state-neutral and are
absorbed into the outcome. -/
inductive Iter where
  | esc
  | frame (o : FrameOutcome)
deriving DecidableEq, Repr

/-- What the closure handed to catch_unwind produced: a normal return (the
loop ended, carrying the Result the closure returned) or an unwound panic. -/
inductive LoopExit where
  | normal (e : Option DisplayControllerError)
  | panicked
deriving DecidableEq, Repr

/-- The while loop inside App::run's panic barrier, over a finite trace of
iterations (an exhausted trace stands for the running flag going false). -/
def runLoop (t : Terminal) : List Iter → LoopExit × Terminal
  | [] => (.normal none, t)
  | .esc :: _ => (.normal none, closeTerminal t)
  | .frame .ok :: rest => runLoop t rest
  | .frame (.err e) :: _ => (.normal (some e), t)
  | .frame .panics :: _ => (.panicked, t)

/-- What App::run returns to its caller: a normal Result return, or a panic
propagating out of run. -/
inductive RunOutcome where
  | ret (e : Option DisplayControllerError)
  | panicked
deriving DecidableEq, Repr

/-- App::run: runs the loop under panic::catch_unwind, binds the caught
result to a variable that is never consulted again (the close-on-error block
is commented out in the source), then unconditionally runs shut_down
(DisplayController::close) and returns Ok(()). -/
def App.run (t : Terminal) (iters : List Iter) : RunOutcome × Terminal :=
  let r := runLoop t iters
  (.ret none, closeTerminal r.2)

/-- Modelled from the spec: the closed tag used for collision and logic
dispatch. -/
inductive DrawableType where
  | Player
  | Enemy
  | Projectile
  | Border
deriving DecidableEq, Repr

/-- Modelled from the spec: a sprite, a rectangular grid of optional Elements
whose cells dimensions exactly match `dimensions`. -/
structure Layout where
  dimensions : Point
  cells : List (List (Option Element))
deriving DecidableEq, Repr

/-- Modelled from the spec: Layout built from an explicit uniform fill. -/
def Layout.new (dimensions : Point) (fill : Option Element) : Layout :=
  ⟨dimensions, List.replicate dimensions.y (List.replicate dimensions.x fill)⟩

/-- Modelled from the spec: per-entity render data. -/
structure DrawableState where
  layout : Layout
  location : PointI
  velocity : PointI
  kind : DrawableType
deriving DecidableEq, Repr

/-- Modelled from the spec: DrawableState constructor; a missing velocity
defaults to zero. -/
def DrawableState.new (layout : Layout) (location : PointI)
    (kind : DrawableType) (velocity : Option PointI) : DrawableState :=
  ⟨layout, location, velocity.getD (PointI.new 0 0), kind⟩

/-- Modelled from the spec: an ordered pool of dynamically created child
entities; spawn appends, iteration order is insertion order. -/
structure Spawnable (T : Type) where
  items : List T
deriving DecidableEq, Repr

def Spawnable.spawn {T : Type} (s : Spawnable T) (item : T) : Spawnable T :=
  ⟨s.items ++ [item]⟩

/-- Modelled from the spec: key codes of the input events the entities react
to. -/
inductive KeyCode where
  | Enter
  | Esc
  | Up
  | Down
  | Left
  | Right
deriving DecidableEq, Repr

/-- Modelled from the spec: a keyboard input event. -/
inductive Event where
  | Key (code : KeyCode)
deriving DecidableEq, Repr

/-- Modelled from the spec: the controller module's helper that builds the
key event for a key code. -/
def create_event (code : KeyCode) : Event := .Key code

/-- Bullet's sprite cell (note the source passes the default background as
the foreground argument and vice versa). -/
def ARROW_ELEMENT : Element := Element.new '^' DEFAULT_BACKGROUND DEFAULT_FOREGROUND

structure Bullet where
  drawable : DrawableState
deriving DecidableEq, Repr

/-- Bullet::new: a 1x1 uniform layout holding the arrow element, the given
spawn location, kind Enemy, no velocity argument. -/
def Bullet.new (location : PointI) : Bullet :=
  ⟨DrawableState.new (Layout.new (Point.new 1 1) (some ARROW_ELEMENT)) location
    DrawableType.Enemy none⟩

def WIDTH_MAX_VELOCITY : Int := 2

def HEIGHT_MAX_VELOCITY : Int := 1

/-- Modelled from the spec: the SPACE_SHIP ascii-art sprite literal is an
excluded static asset (entities/consts.rs is not among the provided sources);
modelled as a 5x3 uniform sprite, which only fixes its dimensions. -/
def SPACE_SHIP : Layout :=
  Layout.new (Point.new 5 3) (some (Element.new 'o' Color.White Color.Black))

structure Player where
  drawable : DrawableState
  bullets : Spawnable Bullet
deriving DecidableEq, Repr

/-- Player::new: the space-ship sprite at location (5,5), kind Player, no
initial velocity, empty bullet pool. -/
def Player.new : Player :=
  ⟨DrawableState.new SPACE_SHIP (PointI.new 5 5) DrawableType.Player none, ⟨[]⟩⟩

/-- Controller::up for Player. -/
def Player.up (p : Player) : Player :=
  { p with drawable := { p.drawable with velocity := PointI.new 0 (-HEIGHT_MAX_VELOCITY) } }

/-- Controller::down for Player. -/
def Player.down (p : Player) : Player :=
  { p with drawable := { p.drawable with velocity := PointI.new 0 HEIGHT_MAX_VELOCITY } }

/-- Controller::left for Player. -/
def Player.left (p : Player) : Player :=
  { p with drawable := { p.drawable with velocity := PointI.new (-WIDTH_MAX_VELOCITY) 0 } }

/-- Controller::right for Player. -/
def Player.right (p : Player) : Player :=
  { p with drawable := { p.drawable with velocity := PointI.new WIDTH_MAX_VELOCITY 0 } }

/-- Player::additional_event_logic: on the Enter key event, spawn one Bullet
at location plus (layout.width/2 - 1, 1) (the width offset computed in u32);
any other event leaves the player untouched. -/
def Player.additional_event_logic (p : Player) (event : Event) : Player :=
  if event = create_event KeyCode.Enter then
    let spawn_position :=
      (p.drawable.location.add_width
          (u32sub (p.drawable.layout.dimensions.x / 2) 1)).add_height 1
    { p with bullets := p.bullets.spawn (Bullet.new spawn_position) }
  else
    p

/-- Modelled from the spec: per-frame movement integration, location +=
velocity, applied once per frame after input processing (the update logic
lives in the systems module, which is not among the provided sources). -/
def tick (d : DrawableState) : DrawableState :=
  { d with
    location := PointI.new (d.location.width + d.velocity.width)
        (d.location.height + d.velocity.height) }

/-- Fallback controller value used only to extract computed controllers into
named constants for concrete test instances. -/
def emptyController : DisplayController :=
  ⟨Point.new 0 0, Point.new 0 0, Point.new 0 0, ⟨[]⟩, Element.default⟩

def NewResult.getOk (r : NewResult) (d : DisplayController) : DisplayController :=
  match r with
  | .ok c => c
  | _ => d

def DrawOutcome.getRes (r : DrawOutcome) (d : DisplayController) : DisplayController :=
  match r with
  | .res c _ => c
  | .panicked => d

/-- Error component of a draw outcome: some e means the call returned with
Result e (none standing for Ok), none means it panicked. -/
def DrawOutcome.errOf : DrawOutcome → Option (Option DisplayControllerError)
  | .res _ e => some e
  | .panicked => none

/-- A terminal with nothing set, the state before App::new. -/
def t0 : Terminal := ⟨false, false, false⟩

/-- A 2x2-terminal controller with a 2x2 play area (zero offset). -/
def ctrl22 : DisplayController :=
  (DisplayController.new t0 2 2 (Point.new 2 2)).1.getOk emptyController

/-- A 3x3-terminal controller with a 3x3 play area (zero offset). -/
def ctrl33 : DisplayController :=
  (DisplayController.new t0 3 3 (Point.new 3 3)).1.getOk emptyController

/-- A generic element used in concrete drawing tests. -/
def wEl : Element := Element.new 'w' Color.Red Color.Black

/-- The state after a partially failing line draw on ctrl33 (cells (1,1) and
(2,1) written, then PositionOutOfRange at x = 3). -/
def partialC : DisplayController :=
  (DisplayController.draw_line ctrl33 wEl 3 (Point.new 1 1)
      Direction.Horizontal).getRes emptyController

/-- The state after drawing a 3x3 rectangle border on ctrl33. -/
def rectC : DisplayController :=
  (DisplayController.draw_rect ctrl33 (Point.new 0 0) (Point.new 3 3) wEl).getRes
    emptyController

/-- The 40x40-terminal controller with the 30x30 play area from the spec
scenario. -/
def ctrl4040 : DisplayController :=
  (DisplayController.new t0 40 40 (Point.new 30 30)).1.getOk emptyController

/-- Well-sizedness of a buffer: s.y rows, every addressable row of length
s.x. -/
def Map.wellSized (m : Map) (s : Point) : Prop :=
  m.map.length = s.y ∧ ∀ i row, m.map.get? i = some row → row.length = s.x

theorem get?_lt_iff {α : Type} (l : List α) (i : Nat) :
    (∃ x, l.get? i = some x) ↔ i < l.length := by
  constructor
  · rintro ⟨x, hx⟩
    by_contra hlt
    rw [List.get?_eq_none.2 (Nat.le_of_not_lt hlt)] at hx
    cases hx
  · intro h
    cases hx : l.get? i with
    | none => exact absurd (List.get?_eq_none.1 hx) (Nat.not_le_of_lt h)
    | some x => exact ⟨x, rfl⟩

theorem wellSized_new (s : Point) : Map.wellSized (Map.new s) s := by
  constructor
  · simp [Map.new]
  · intro i row hrow
    have hmem := List.get?_mem hrow
    rw [List.eq_of_mem_replicate hmem]
    simp

theorem wellSized_set (m : Map) (s : Point) (hws : Map.wellSized m s) (y : Nat)
    (row' : List (Option Element)) (hlen : row'.length = s.x) :
    Map.wellSized ⟨m.map.set y row'⟩ s := by
  constructor
  · simpa using hws.1
  · intro i row hrow
    simp only [List.get?_set] at hrow
    by_cases hy : y = i
    · rw [if_pos hy] at hrow
      cases hget : m.map.get? i with
      | none => rw [hget] at hrow; cases hrow
      | some r0 =>
        rw [hget] at hrow
        simp at hrow
        rw [← hrow]; exact hlen
    · rw [if_neg hy] at hrow
      exact hws.2 i row hrow

theorem getCell_set_self (m : Map) (q : Point) (row : List (Option Element))
    (hrow : m.map.get? q.y = some row) (hx : q.x < row.length) (v : Option Element) :
    Map.getCell ⟨m.map.set q.y (row.set q.x v)⟩ q = some v := by
  obtain ⟨x, hxx⟩ := (get?_lt_iff row q.x).2 hx
  unfold Map.getCell
  rw [List.get?_set, if_pos rfl, hrow]
  show (row.set q.x v).get? q.x = some v
  rw [List.get?_set, if_pos rfl, hxx]
  rfl

theorem getCell_set_other (m : Map) (w q : Point) (row : List (Option Element))
    (hrow : m.map.get? w.y = some row) (v : Option Element) (hne : q ≠ w) :
    Map.getCell ⟨m.map.set w.y (row.set w.x v)⟩ q = Map.getCell m q := by
  unfold Map.getCell
  by_cases hy : q.y = w.y
  · have hx : w.x ≠ q.x := by
      intro hx
      exact hne (by cases q; cases w; simp_all)
    rw [hy, List.get?_set, if_pos rfl, hrow]
    show (row.set w.x v).get? q.x = row.get? q.x
    rw [List.get?_set_ne _ _ hx]
  · rw [List.get?_set_ne _ _ (fun h => hy h.symm)]

theorem draw_item_oob (c : DisplayController) (el : Element) (p : Point)
    (h : p.x ≥ c.dimensions.x ∨ p.y ≥ c.dimensions.y) :
    DisplayController.draw_item c el p =
      DrawOutcome.res c (some DisplayControllerError.PositionOutOfRange) := by
  unfold DisplayController.draw_item
  rw [if_pos h]

theorem draw_item_res_none (c : DisplayController) (el : Element) (p : Point)
    (c' : DisplayController)
    (h : DisplayController.draw_item c el p = DrawOutcome.res c' none) :
    (p.x < c.dimensions.x ∧ p.y < c.dimensions.y) ∧
    ∃ row, c.display.map.get? (c.offset.add p).y = some row ∧
      (c.offset.add p).x < row.length ∧
      c' = { c with display :=
            ⟨c.display.map.set (c.offset.add p).y
              (row.set (c.offset.add p).x (some el))⟩ } := by
  by_cases hb : p.x ≥ c.dimensions.x ∨ p.y ≥ c.dimensions.y
  · rw [draw_item_oob c el p hb] at h
    simp at h
  · unfold DisplayController.draw_item at h
    rw [if_neg hb] at h
    push_neg at hb
    refine ⟨⟨hb.1, hb.2⟩, ?_⟩
    cases hrow : c.display.map.get? (c.offset.add p).y with
    | none => simp only [hrow] at h; simp at h
    | some row =>
      simp only [hrow] at h
      by_cases hx : (c.offset.add p).x < row.length
      · rw [if_pos hx] at h
        simp only [DrawOutcome.res.injEq] at h
        exact ⟨row, rfl, hx, h.1.symm⟩
      · rw [if_neg hx] at h
        cases h

theorem draw_item_ok_of (c : DisplayController) (el : Element) (p : Point)
    (hx : p.x < c.dimensions.x) (hy : p.y < c.dimensions.y)
    (row : List (Option Element))
    (hrow : c.display.map.get? (c.offset.add p).y = some row)
    (hlen : (c.offset.add p).x < row.length) :
    DisplayController.draw_item c el p =
      DrawOutcome.res { c with display :=
          ⟨c.display.map.set (c.offset.add p).y
            (row.set (c.offset.add p).x (some el))⟩ } none := by
  unfold DisplayController.draw_item
  rw [if_neg (by push_neg; exact ⟨hx, hy⟩)]
  simp only [hrow]
  rw [if_pos hlen]

theorem draw_item_fields (c : DisplayController) (el : Element) (p : Point)
    (c' : DisplayController)
    (h : DisplayController.draw_item c el p = DrawOutcome.res c' none) :
    c'.dimensions = c.dimensions ∧ c'.offset = c.offset ∧
    c'.screen_size = c.screen_size := by
  obtain ⟨-, row, -, -, hc'⟩ := draw_item_res_none c el p c' h
  rw [hc']
  exact ⟨rfl, rfl, rfl⟩

theorem draw_item_wellSized (c : DisplayController) (el : Element) (p : Point)
    (c' : DisplayController) (s : Point) (hws : Map.wellSized c.display s)
    (h : DisplayController.draw_item c el p = DrawOutcome.res c' none) :
    Map.wellSized c'.display s := by
  obtain ⟨-, row, hrow, -, hc'⟩ := draw_item_res_none c el p c' h
  rw [hc']
  exact wellSized_set c.display s hws _ _ (by rw [List.length_set]; exact hws.2 _ _ hrow)

theorem draw_item_cells (c : DisplayController) (el : Element) (p : Point)
    (c' : DisplayController)
    (h : DisplayController.draw_item c el p = DrawOutcome.res c' none) :
    Map.getCell c'.display (c.offset.add p) = some (some el) ∧
    ∀ q, q ≠ c.offset.add p → Map.getCell c'.display q = Map.getCell c.display q := by
  obtain ⟨-, row, hrow, hlen, hc'⟩ := draw_item_res_none c el p c' h
  rw [hc']
  constructor
  · exact getCell_set_self c.display _ row hrow hlen (some el)
  · intro q hq
    exact getCell_set_other c.display _ q row hrow (some el) hq

theorem draw_item_in_range (c : DisplayController) (el : Element) (p : Point)
    (s : Point) (hws : Map.wellSized c.display s)
    (hx : p.x < c.dimensions.x) (hy : p.y < c.dimensions.y)
    (hby : (c.offset.add p).y < s.y) (hbx : (c.offset.add p).x < s.x) :
    ∃ row, c.display.map.get? (c.offset.add p).y = some row ∧
      (c.offset.add p).x < row.length ∧
      DisplayController.draw_item c el p =
        DrawOutcome.res { c with display :=
            ⟨c.display.map.set (c.offset.add p).y
              (row.set (c.offset.add p).x (some el))⟩ } none := by
  obtain ⟨row, hrow⟩ := (get?_lt_iff c.display.map (c.offset.add p).y).2
    (by rw [hws.1]; exact hby)
  have hlen : (c.offset.add p).x < row.length := by
    rw [hws.2 _ _ hrow]; exact hbx
  exact ⟨row, hrow, hlen, draw_item_ok_of c el p hx hy row hrow hlen⟩

theorem draw_line_aux_append (el : Element) (st : Point) (d : Direction)
    (l1 l2 : List Nat) (c : DisplayController) :
    DisplayController.draw_line_aux el st d c (l1 ++ l2) =
      (DisplayController.draw_line_aux el st d c l1).andThen
        (fun c1 => DisplayController.draw_line_aux el st d c1 l2) := by
  induction l1 generalizing c with
  | nil => simp [DisplayController.draw_line_aux, DrawOutcome.andThen]
  | cons i rest ih =>
    simp only [List.cons_append, DisplayController.draw_line_aux]
    cases hi : DisplayController.draw_item c el (lineCell st d i) with
    | res c' e =>
      cases e with
      | none => exact ih c'
      | some err => simp [DrawOutcome.andThen]
    | panicked => simp [DrawOutcome.andThen]

theorem draw_line_aux_facts (el : Element) (st : Point) (d : Direction)
    (s : Point) (is : List Nat) :
    ∀ (c c' : DisplayController), Map.wellSized c.display s →
      DisplayController.draw_line_aux el st d c is = DrawOutcome.res c' none →
      (c'.dimensions = c.dimensions ∧ c'.offset = c.offset ∧
        c'.screen_size = c.screen_size ∧ Map.wellSized c'.display s) ∧
      (∀ i ∈ is,
        (lineCell st d i).x < c.dimensions.x ∧ (lineCell st d i).y < c.dimensions.y ∧
        (c.offset.add (lineCell st d i)).y < s.y ∧
        (c.offset.add (lineCell st d i)).x < s.x) ∧
      (∀ i ∈ is,
        Map.getCell c'.display (c.offset.add (lineCell st d i)) = some (some el)) ∧
      (∀ q : Point, (∀ i ∈ is, q ≠ c.offset.add (lineCell st d i)) →
        Map.getCell c'.display q = Map.getCell c.display q) := by
  induction is with
  | nil =>
    intro c c' hws h
    simp only [DisplayController.draw_line_aux, DrawOutcome.res.injEq] at h
    obtain ⟨rfl, -⟩ := h
    refine ⟨⟨rfl, rfl, rfl, hws⟩, ?_, ?_, ?_⟩ <;> simp
  | cons i rest ih =>
    intro c c' hws h
    simp only [DisplayController.draw_line_aux] at h
    cases hi : DisplayController.draw_item c el (lineCell st d i) with
    | panicked => simp only [hi] at h; cases h
    | res c1 e =>
      cases e with
      | some err => simp only [hi] at h; cases h
      | none =>
        simp only [hi] at h
        obtain ⟨hd1, ho1, hs1⟩ := draw_item_fields c el _ c1 hi
        have hws1 := draw_item_wellSized c el _ c1 s hws hi
        obtain ⟨⟨hlx, hly⟩, row, hrow, hlen, -⟩ := draw_item_res_none c el _ c1 hi
        have hcells := draw_item_cells c el _ c1 hi
        obtain ⟨⟨hd, ho, hs2, hws'⟩, hlocs, hwrit, hunch⟩ := ih c1 c' hws1 h
        have hby : (c.offset.add (lineCell st d i)).y < s.y := by
          have hlt := (get?_lt_iff _ _).1 ⟨row, hrow⟩
          rw [hws.1] at hlt
          exact hlt
        have hbx : (c.offset.add (lineCell st d i)).x < s.x := by
          rw [← hws.2 _ _ hrow]
          exact hlen
        refine ⟨⟨hd.trans hd1, ho.trans ho1, hs2.trans hs1, hws'⟩, ?_, ?_, ?_⟩
        · intro j hj
          rcases List.mem_cons.1 hj with hj0 | hjr
          · subst hj0
            exact ⟨hlx, hly, hby, hbx⟩
          · have hjf := hlocs j hjr
            rw [hd1, ho1] at hjf
            exact hjf
        · intro j hj
          rcases List.mem_cons.1 hj with hj0 | hjr
          · subst hj0
            by_cases htouch :
                ∀ k ∈ rest, c.offset.add (lineCell st d j) ≠ c1.offset.add (lineCell st d k)
            · rw [hunch _ htouch]
              exact hcells.1
            · push_neg at htouch
              obtain ⟨k, hk, heq⟩ := htouch
              rw [heq]
              exact hwrit k hk
          · have hjf := hwrit j hjr
            rw [ho1] at hjf
            exact hjf
        · intro q hq
          have h1 : ∀ k ∈ rest, q ≠ c1.offset.add (lineCell st d k) := by
            intro k hk
            rw [ho1]
            exact hq k (List.mem_cons_of_mem i hk)
          rw [hunch q h1]
          exact hcells.2 q (hq i (List.mem_cons_self i rest))

theorem draw_line_aux_ok (el : Element) (st : Point) (d : Direction) (s : Point)
    (is : List Nat) :
    ∀ (c : DisplayController), Map.wellSized c.display s →
      (∀ i ∈ is,
        (lineCell st d i).x < c.dimensions.x ∧ (lineCell st d i).y < c.dimensions.y ∧
        (c.offset.add (lineCell st d i)).y < s.y ∧
        (c.offset.add (lineCell st d i)).x < s.x) →
      ∃ c', DisplayController.draw_line_aux el st d c is = DrawOutcome.res c' none := by
  induction is with
  | nil =>
    intro c _ _
    exact ⟨c, rfl⟩
  | cons i rest ih =>
    intro c hws hfacts
    obtain ⟨hx, hy, hby, hbx⟩ := hfacts i (by simp)
    obtain ⟨row, hrow, hlen, hitem⟩ :=
      draw_item_in_range c el (lineCell st d i) s hws hx hy hby hbx
    have hws1 := draw_item_wellSized c el (lineCell st d i) _ s hws hitem
    obtain ⟨hd1, ho1, hs1⟩ := draw_item_fields c el (lineCell st d i) _ hitem
    obtain ⟨c', hc'⟩ := ih _ hws1 (fun j hj => by
      rw [hd1, ho1]
      exact hfacts j (List.mem_cons_of_mem i hj))
    refine ⟨c', ?_⟩
    simp only [DisplayController.draw_line_aux, hitem]
    exact hc'

theorem andThen_eq_res_none (r : DrawOutcome) (f : DisplayController → DrawOutcome)
    (c' : DisplayController) (h : r.andThen f = DrawOutcome.res c' none) :
    ∃ c1, r = DrawOutcome.res c1 none ∧ f c1 = DrawOutcome.res c' none := by
  cases r with
  | res cr e =>
    cases e with
    | none => exact ⟨cr, rfl, h⟩
    | some err => simp [DrawOutcome.andThen] at h
  | panicked => simp [DrawOutcome.andThen] at h

theorem new_ok_borders (t : Terminal) (cols rows : Nat) (dims : Point)
    (c : DisplayController)
    (hnew : (DisplayController.new t cols rows dims).1 = NewResult.ok c) :
    dims.x ≤ rows ∧ dims.y ≤ cols ∧
    DisplayController.draw_borders (initController cols rows dims) =
      DrawOutcome.res c none := by
  unfold DisplayController.new at hnew
  by_cases hch : dims.x > rows ∨ dims.y > cols
  · rw [if_pos hch] at hnew
    cases hnew
  · rw [if_neg hch] at hnew
    push_neg at hch
    refine ⟨hch.1, hch.2, ?_⟩
    cases hb : ((initController cols rows dims).draw_borders).andThen
        DisplayController.print_display with
    | panicked => simp only [hb] at hnew; cases hnew
    | res cb e =>
      cases e with
      | some err => simp only [hb] at hnew; cases hnew
      | none =>
        simp only [hb] at hnew
        simp only [NewResult.ok.injEq] at hnew
        obtain ⟨cb2, hb1, hb2⟩ := andThen_eq_res_none _ _ _ hb
        simp only [DisplayController.print_display, DrawOutcome.res.injEq] at hb2
        rw [hb1, hb2.1, hnew]

theorem new_ok_spec (t : Terminal) (cols rows : Nat) (dims : Point)
    (c : DisplayController)
    (hnew : (DisplayController.new t cols rows dims).1 = NewResult.ok c) :
    dims.x ≤ rows ∧ dims.y ≤ cols ∧
    c.dimensions = dims ∧
    c.screen_size = Point.new cols rows ∧
    c.offset = ((Point.new cols rows).sub dims).div (Point.new 2 2) ∧
    Map.wellSized c.display (Point.new cols rows) ∧
    (∀ i < dims.x,
      (c.offset.add (Point.new (i % U32) 0)).y < rows ∧
      (c.offset.add (Point.new (i % U32) 0)).x < cols) ∧
    (∀ j < dims.y,
      (c.offset.add (Point.new 0 (j % U32))).y < rows ∧
      (c.offset.add (Point.new 0 (j % U32))).x < cols) ∧
    (0 < dims.x → 0 < dims.y) ∧
    (0 < dims.y → 0 < dims.x) := by
  obtain ⟨hxr, hyc, hborders⟩ := new_ok_borders t cols rows dims c hnew
  have hws0 : Map.wellSized (initController cols rows dims).display (Point.new cols rows) :=
    wellSized_new (Point.new cols rows)
  unfold DisplayController.draw_borders DisplayController.draw_rect at hborders
  obtain ⟨c1, h1, hrest⟩ := andThen_eq_res_none _ _ _ hborders
  obtain ⟨c2, h2, hrest2⟩ := andThen_eq_res_none _ _ _ hrest
  obtain ⟨c3, h3, h4⟩ := andThen_eq_res_none _ _ _ hrest2
  unfold DisplayController.draw_line at h1 h2 h3 h4
  obtain ⟨⟨hd1, ho1, hs1, hws1⟩, hf1, -, -⟩ :=
    draw_line_aux_facts _ _ _ (Point.new cols rows) _ _ _ hws0 h1
  obtain ⟨⟨hd2, ho2, hs2, hws2⟩, -, -, -⟩ :=
    draw_line_aux_facts _ _ _ (Point.new cols rows) _ _ _ hws1 h2
  obtain ⟨⟨hd3, ho3, hs3, hws3⟩, hf3, -, -⟩ :=
    draw_line_aux_facts _ _ _ (Point.new cols rows) _ _ _ hws2 h3
  obtain ⟨⟨hd4, ho4, hs4, hws4⟩, -, -, -⟩ :=
    draw_line_aux_facts _ _ _ (Point.new cols rows) _ _ _ hws3 h4
  have hcd : c.dimensions = dims := by
    rw [hd4, hd3, hd2, hd1]
    rfl
  have hco : c.offset = (initController cols rows dims).offset := by
    rw [ho4, ho3, ho2, ho1]
  refine ⟨hxr, hyc, hcd, by rw [hs4, hs3, hs2, hs1]; rfl, by rw [hco]; rfl, hws4,
    ?_, ?_, ?_, ?_⟩
  · intro i hi
    have hmem : i ∈ List.range (initController cols rows dims).dimensions.x :=
      List.mem_range.2 hi
    have hfi := hf1 i hmem
    have hcell : lineCell (Point.new 0 0) Direction.Horizontal i = Point.new (i % U32) 0 := by
      simp [lineCell, Point.addX, Point.new]
    rw [hcell] at hfi
    rw [hco]
    exact ⟨hfi.2.2.1, hfi.2.2.2⟩
  · intro j hj
    have hmem : j ∈ List.range (initController cols rows dims).dimensions.y := by
      have := hd2.trans hd1
      exact List.mem_range.2 hj
    have hfj := hf3 j hmem
    have hcell : lineCell (Point.new 0 0) Direction.Vertical j = Point.new 0 (j % U32) := by
      simp [lineCell, Point.addY, Point.new]
    rw [hcell] at hfj
    rw [hco]
    rw [ho2.trans ho1] at hfj
    exact ⟨hfj.2.2.1, hfj.2.2.2⟩
  · intro hx1
    have hfi := hf1 0 (List.mem_range.2 hx1)
    exact hfi.2.1
  · intro hy1
    have hfj := hf3 0 (List.mem_range.2 hy1)
    have hfx := hfj.1
    rw [hd2.trans hd1] at hfx
    exact hfx

theorem new_ok_dims_le (t : Terminal) (cols rows : Nat) (dims : Point)
    (c : DisplayController) (hcols : cols < 65536) (hrows : rows < 65536)
    (hnew : (DisplayController.new t cols rows dims).1 = NewResult.ok c) :
    dims.x ≤ cols ∧ dims.y ≤ rows := by
  obtain ⟨hxr, hyc, -, -, hoff, -, hH, hV, hxy, hyx⟩ :=
    new_ok_spec t cols rows dims c hnew
  rcases Nat.eq_zero_or_pos dims.x with hx0 | hx1
  · rcases Nat.eq_zero_or_pos dims.y with hy0 | hy1
    · omega
    · have := hyx hy1
      omega
  · have hy1 : 0 < dims.y := hxy hx1
    have h1 := (hH 0 hx1).2
    have h2 := (hV 0 hy1).1
    rw [hoff] at h1 h2
    simp only [Point.add, Point.div, Point.sub, Point.new, u32sub, U32] at h1 h2
    constructor
    · omega
    · omega

theorem new_ok_inplay (t : Terminal) (cols rows : Nat) (dims : Point)
    (c : DisplayController) (hcols : cols < 65536) (hrows : rows < 65536)
    (hnew : (DisplayController.new t cols rows dims).1 = NewResult.ok c)
    (p : Point) (hx : p.x < dims.x) (hy : p.y < dims.y) :
    (c.offset.add p).y < rows ∧ (c.offset.add p).x < cols := by
  obtain ⟨hxr, hyc, -, -, -, -, hH, hV, -, -⟩ := new_ok_spec t cols rows dims c hnew
  have hU : (65536 : Nat) < U32 := by norm_num [U32]
  have hpx : p.x % U32 = p.x :=
    Nat.mod_eq_of_lt (Nat.lt_trans (Nat.lt_of_lt_of_le hx (Nat.le_trans hxr
      (Nat.le_of_lt hrows))) hU)
  have hpy : p.y % U32 = p.y :=
    Nat.mod_eq_of_lt (Nat.lt_trans (Nat.lt_of_lt_of_le hy (Nat.le_trans hyc
      (Nat.le_of_lt hcols))) hU)
  have h1 := hH p.x hx
  have h2 := hV p.y hy
  rw [hpx] at h1
  rw [hpy] at h2
  constructor
  · have he : (c.offset.add p).y = (c.offset.add (Point.new 0 p.y)).y := by
      simp [Point.add, Point.new]
    rw [he]
    exact h2.1
  · have he : (c.offset.add p).x = (c.offset.add (Point.new p.x 0)).x := by
      simp [Point.add, Point.new]
    rw [he]
    exact h1.2

/-- C2: for every play-area-local position p with p.x < dimensions.x and
p.y < dimensions.y, draw_item on a successfully constructed DisplayController
succeeds (returns Ok and stores the element at buffer position offset + p);
for every p with p.x at or beyond dimensions.x or p.y at or beyond
dimensions.y it fails with PositionOutOfRange, the bounds check being
performed on the local coordinates before the offset translation (the state
comes back unchanged). -/
theorem C2_draw_item_bounds (t : Terminal) (cols rows : Nat) (dims : Point)
    (c : DisplayController) (el : Element) (p : Point)
    (hcols : cols < 65536) (hrows : rows < 65536)
    (hnew : (DisplayController.new t cols rows dims).1 = NewResult.ok c) :
    (p.x < dims.x ∧ p.y < dims.y →
      (DisplayController.draw_item c el p).errOf = some none ∧
      ∀ c', DisplayController.draw_item c el p = DrawOutcome.res c' none →
        Map.getCell c'.display (c.offset.add p) = some (some el)) ∧
    (dims.x ≤ p.x ∨ dims.y ≤ p.y →
      DisplayController.draw_item c el p =
        DrawOutcome.res c (some DisplayControllerError.PositionOutOfRange)) := by
  obtain ⟨-, -, hcd, -, -, hws, -, -⟩ := new_ok_spec t cols rows dims c hnew
  constructor
  · rintro ⟨hx, hy⟩
    obtain ⟨hby, hbx⟩ := new_ok_inplay t cols rows dims c hcols hrows hnew p hx hy
    obtain ⟨row, hrow, hlen, hitem⟩ := draw_item_in_range c el p (Point.new cols rows)
      hws (by rw [hcd]; exact hx) (by rw [hcd]; exact hy) hby hbx
    constructor
    · rw [hitem]
      rfl
    · intro c' hc'
      exact (draw_item_cells c el p c' hc').1
  · intro hoob
    exact draw_item_oob c el p (by rw [hcd]; exact hoob)

theorem C2_draw_item_bounds_witness :
    (DisplayController.draw_item ctrl22 wEl (Point.new 1 1)).errOf = some none ∧
    DisplayController.draw_item ctrl22 wEl (Point.new 2 0) =
      DrawOutcome.res ctrl22 (some DisplayControllerError.PositionOutOfRange) := by
  have hnew : (DisplayController.new t0 2 2 (Point.new 2 2)).1 = NewResult.ok ctrl22 := by
    decide
  constructor
  · exact ((C2_draw_item_bounds t0 2 2 (Point.new 2 2) ctrl22 wEl (Point.new 1 1)
      (by decide) (by decide) hnew).1 ⟨by decide, by decide⟩).1
  · exact (C2_draw_item_bounds t0 2 2 (Point.new 2 2) ctrl22 wEl (Point.new 2 0)
      (by decide) (by decide) hnew).2 (Or.inl (by decide))

/-- C9 as stated is false: a passed construction-time terminal-size check
alone does not make the buffer accesses of a locally checked draw_item safe.
At terminal columns = 20, rows = 40 with play area 30x10 the source's size
check passes and the local bounds check at (0,0) passes, yet draw_item on the
freshly checked controller state panics on the unchecked column index (the
u32 offset subtraction columns - width wrapped); at columns = 40, rows = 20
with play area 10x30 both checks pass and draw_item instead returns through
the supposedly unreachable secondary PositionOutOfRange branch (the row
lookup misses). -/
theorem C9_counterexample :
    (¬((Point.new 30 10).x > 40 ∨ (Point.new 30 10).y > 20)) ∧
    (Point.new 0 0).x < (initController 20 40 (Point.new 30 10)).dimensions.x ∧
    (Point.new 0 0).y < (initController 20 40 (Point.new 30 10)).dimensions.y ∧
    DisplayController.draw_item (initController 20 40 (Point.new 30 10)) wEl
      (Point.new 0 0) = DrawOutcome.panicked ∧
    (¬((Point.new 10 30).x > 20 ∨ (Point.new 10 30).y > 40)) ∧
    (Point.new 0 0).x < (initController 40 20 (Point.new 10 30)).dimensions.x ∧
    (Point.new 0 0).y < (initController 40 20 (Point.new 10 30)).dimensions.y ∧
    DisplayController.draw_item (initController 40 20 (Point.new 10 30)) wEl
      (Point.new 0 0) =
      DrawOutcome.res (initController 40 20 (Point.new 10 30))
        (some DisplayControllerError.PositionOutOfRange) := by
  refine ⟨by decide, by decide, by decide, by decide, by decide, by decide,
    by decide, by decide⟩

/-- C9 amended: after a successful construction (the size check passed and
the constructor's initial border draw completed, returning Ok - the size
check alone is not enough), a draw_item call that passes the play-area-local
bounds check has all its buffer accesses in range: the row lookup at
offset + p hits an existing row and the unchecked column index is within
that row (the buffer cell lookup is defined), so draw_item returns Ok for
every element - it neither panics nor reaches its secondary
PositionOutOfRange branch. -/
theorem C9_no_panic (t : Terminal) (cols rows : Nat) (dims : Point)
    (c : DisplayController) (p : Point)
    (hcols : cols < 65536) (hrows : rows < 65536)
    (hnew : (DisplayController.new t cols rows dims).1 = NewResult.ok c)
    (hx : p.x < dims.x) (hy : p.y < dims.y) :
    (Map.getCell c.display (c.offset.add p)).isSome = true ∧
    ∀ el, (DisplayController.draw_item c el p).errOf = some none := by
  obtain ⟨-, -, hcd, -, -, hws, -, -⟩ := new_ok_spec t cols rows dims c hnew
  obtain ⟨hby, hbx⟩ := new_ok_inplay t cols rows dims c hcols hrows hnew p hx hy
  obtain ⟨row, hrowe⟩ := (get?_lt_iff c.display.map (c.offset.add p).y).2
    (by rw [hws.1]; exact hby)
  have hlen : (c.offset.add p).x < row.length := by
    rw [hws.2 _ _ hrowe]
    exact hbx
  constructor
  · unfold Map.getCell
    rw [hrowe]
    obtain ⟨x, hxx⟩ := (get?_lt_iff row _).2 hlen
    show (row.get? (c.offset.add p).x).isSome = true
    rw [hxx]
    rfl
  · intro el
    obtain ⟨row2, hrow2, hlen2, hitem⟩ := draw_item_in_range c el p (Point.new cols rows)
      hws (by rw [hcd]; exact hx) (by rw [hcd]; exact hy) hby hbx
    rw [hitem]
    rfl

theorem C9_no_panic_witness :
    (Map.getCell ctrl22.display (ctrl22.offset.add (Point.new 0 1))).isSome = true ∧
    (DisplayController.draw_item ctrl22 wEl (Point.new 0 1)).errOf = some none := by
  have hnew : (DisplayController.new t0 2 2 (Point.new 2 2)).1 = NewResult.ok ctrl22 := by
    decide
  have h := C9_no_panic t0 2 2 (Point.new 2 2) ctrl22 (Point.new 0 1)
    (by decide) (by decide) hnew (by decide) (by decide)
  exact ⟨h.1, h.2 wEl⟩

/-- C3: for a terminal of size (W,H) = (columns, rows) and a requested play
area (w,h), the centering offset of a successfully constructed controller is
((W-w)/2, (H-h)/2) under integer floor division; a play area equal to the
terminal size yields offset (0,0); every draw targets buffer position
offset + p for local p; and concretely a 40x40 terminal with a 30x30 play
area yields offset (5,5), local (29,29) maps to buffer (34,34), and local
(30,0) fails with PositionOutOfRange. -/
theorem C3_offset_law (t : Terminal) (cols rows : Nat) (dims : Point)
    (c : DisplayController) (hcols : cols < 65536) (hrows : rows < 65536)
    (hnew : (DisplayController.new t cols rows dims).1 = NewResult.ok c) :
    c.offset = Point.new ((cols - dims.x) / 2) ((rows - dims.y) / 2) ∧
    (dims.x = cols ∧ dims.y = rows → c.offset = Point.new 0 0) ∧
    (∀ el p c', DisplayController.draw_item c el p = DrawOutcome.res c' none →
      Map.getCell c'.display (c.offset.add p) = some (some el)) ∧
    (DisplayController.new t0 40 40 (Point.new 30 30)).1 = NewResult.ok ctrl4040 ∧
    ctrl4040.offset = Point.new 5 5 ∧
    ctrl4040.offset.add (Point.new 29 29) = Point.new 34 34 ∧
    (DisplayController.draw_item ctrl4040 wEl (Point.new 30 0)).errOf =
      some (some DisplayControllerError.PositionOutOfRange) := by
  obtain ⟨hdx, hdy⟩ := new_ok_dims_le t cols rows dims c hcols hrows hnew
  obtain ⟨hxr, hyc, -, -, hoff, -, -, -, -, -⟩ := new_ok_spec t cols rows dims c hnew
  have hofs : c.offset = Point.new ((cols - dims.x) / 2) ((rows - dims.y) / 2) := by
    rw [hoff]
    simp only [Point.sub, Point.div, Point.new, u32sub, U32, Point.mk.injEq]
    constructor
    · omega
    · omega
  refine ⟨hofs, ?_, ?_, by rfl, by rfl, by rfl, by rfl⟩
  · rintro ⟨hex, hey⟩
    rw [hofs, hex, hey]
    simp [Point.new]
  · intro el p c' hitem
    exact (draw_item_cells c el p c' hitem).1

theorem C3_offset_law_witness : ctrl22.offset = Point.new 0 0 := by
  have hnew : (DisplayController.new t0 2 2 (Point.new 2 2)).1 = NewResult.ok ctrl22 := by
    decide
  have h := (C3_offset_law t0 2 2 (Point.new 2 2) ctrl22 (by decide) (by decide) hnew).1
  simpa using h

theorem u32sub_lt_U32 (a b : Nat) : u32sub a b < U32 := by
  simp only [u32sub, U32]
  omega

theorem u32sub_one (a : Nat) (h1 : 1 ≤ a) (h2 : a < U32) : u32sub a 1 = a - 1 := by
  simp only [u32sub, U32] at h2 ⊢
  omega

theorem offset_add_inj (off p q : Point)
    (hpx : p.x < 65536) (hpy : p.y < 65536) (hqx : q.x < 65536) (hqy : q.y < 65536)
    (h : off.add p = off.add q) : p = q := by
  simp only [Point.add, Point.mk.injEq] at h
  obtain ⟨h1, h2⟩ := h
  simp only [U32] at h1 h2
  cases p with
  | mk px py =>
    cases q with
    | mk qx qy =>
      simp only [Point.mk.injEq]
      simp only at h1 h2 hpx hpy hqx hqy
      constructor
      · omega
      · omega

theorem offadd_ne (off p q : Point)
    (hpx : p.x < 65536) (hpy : p.y < 65536) (hqx : q.x < 65536) (hqy : q.y < 65536)
    (hne : p ≠ q) : off.add p ≠ off.add q :=
  fun h => hne (offset_add_inj off p q hpx hpy hqx hqy h)

theorem range_split (i0 L : Nat) (h : i0 < L) :
    ∃ rest, List.range L = List.range i0 ++ i0 :: rest := by
  obtain ⟨k, rfl⟩ : ∃ k, L = i0 + (k + 1) := ⟨L - i0 - 1, by omega⟩
  refine ⟨(List.range k).map (fun x => i0 + (x + 1)), ?_⟩
  rw [List.range_add]
  congr 1
  rw [List.range_succ_eq_map]
  simp [List.map_map, Function.comp]

theorem lineCell_eval_H (x0 y0 i : Nat) (hx : x0 + i < U32) :
    lineCell (Point.new x0 y0) Direction.Horizontal i = Point.new (x0 + i) y0 := by
  simp [lineCell, Point.addX, Point.new, Nat.mod_eq_of_lt hx]

theorem lineCell_eval_V (x0 y0 j : Nat) (hy : y0 + j < U32) :
    lineCell (Point.new x0 y0) Direction.Vertical j = Point.new x0 (y0 + j) := by
  simp [lineCell, Point.addY, Point.new, Nat.mod_eq_of_lt hy]

/-- C8: draw_line writes the element to exactly the len consecutive cells
along the chosen axis starting at start when all of them lie inside the local
play-area bounds; if some cell along the line is out of local range, it
returns PositionOutOfRange at the first such cell, and the cells written
before the failure remain written while everything else is untouched (no
rollback, not transactional). -/
theorem C8_draw_line (t : Terminal) (cols rows : Nat) (dims : Point)
    (c : DisplayController) (el : Element) (L : Nat) (st : Point) (d : Direction)
    (hcols : cols < 65536) (hrows : rows < 65536)
    (hnew : (DisplayController.new t cols rows dims).1 = NewResult.ok c) :
    ((∀ i < L, (lineCell st d i).x < dims.x ∧ (lineCell st d i).y < dims.y) →
      (DisplayController.draw_line c el L st d).errOf = some none ∧
      ∀ c', DisplayController.draw_line c el L st d = DrawOutcome.res c' none →
        (∀ i < L,
          Map.getCell c'.display (c.offset.add (lineCell st d i)) = some (some el)) ∧
        (∀ q, (∀ i < L, q ≠ c.offset.add (lineCell st d i)) →
          Map.getCell c'.display q = Map.getCell c.display q)) ∧
    (∀ i0, i0 < L →
      (dims.x ≤ (lineCell st d i0).x ∨ dims.y ≤ (lineCell st d i0).y) →
      (∀ j < i0, (lineCell st d j).x < dims.x ∧ (lineCell st d j).y < dims.y) →
      (DisplayController.draw_line c el L st d).errOf =
        some (some DisplayControllerError.PositionOutOfRange) ∧
      ∀ c', DisplayController.draw_line c el L st d =
          DrawOutcome.res c' (some DisplayControllerError.PositionOutOfRange) →
        (∀ j < i0,
          Map.getCell c'.display (c.offset.add (lineCell st d j)) = some (some el)) ∧
        (∀ q, (∀ j < i0, q ≠ c.offset.add (lineCell st d j)) →
          Map.getCell c'.display q = Map.getCell c.display q)) := by
  obtain ⟨-, -, hcd, -, -, hws, -⟩ := new_ok_spec t cols rows dims c hnew
  constructor
  · intro hin
    have hfacts : ∀ i ∈ List.range L,
        (lineCell st d i).x < c.dimensions.x ∧ (lineCell st d i).y < c.dimensions.y ∧
        (c.offset.add (lineCell st d i)).y < (Point.new cols rows).y ∧
        (c.offset.add (lineCell st d i)).x < (Point.new cols rows).x := by
      intro i hi
      have hiL := List.mem_range.1 hi
      obtain ⟨hlx, hly⟩ := hin i hiL
      obtain ⟨hby, hbx⟩ := new_ok_inplay t cols rows dims c hcols hrows hnew
        (lineCell st d i) hlx hly
      exact ⟨by rw [hcd]; exact hlx, by rw [hcd]; exact hly, hby, hbx⟩
    obtain ⟨cok, hcok⟩ := draw_line_aux_ok el st d (Point.new cols rows)
      (List.range L) c hws hfacts
    constructor
    · unfold DisplayController.draw_line
      rw [hcok]
      rfl
    · intro c' hc'
      unfold DisplayController.draw_line at hc'
      obtain ⟨-, -, hwrit, hunch⟩ :=
        draw_line_aux_facts el st d (Point.new cols rows) (List.range L) c c' hws hc'
      constructor
      · intro i hi
        exact hwrit i (List.mem_range.2 hi)
      · intro q hq
        exact hunch q (fun i hi => hq i (List.mem_range.1 hi))
  · intro i0 hi0 hbad hpre
    obtain ⟨rest, hsplit⟩ := range_split i0 L hi0
    have hfacts : ∀ j ∈ List.range i0,
        (lineCell st d j).x < c.dimensions.x ∧ (lineCell st d j).y < c.dimensions.y ∧
        (c.offset.add (lineCell st d j)).y < (Point.new cols rows).y ∧
        (c.offset.add (lineCell st d j)).x < (Point.new cols rows).x := by
      intro j hj
      have hjL := List.mem_range.1 hj
      obtain ⟨hlx, hly⟩ := hpre j hjL
      obtain ⟨hby, hbx⟩ := new_ok_inplay t cols rows dims c hcols hrows hnew
        (lineCell st d j) hlx hly
      exact ⟨by rw [hcd]; exact hlx, by rw [hcd]; exact hly, hby, hbx⟩
    obtain ⟨cp, hcp⟩ := draw_line_aux_ok el st d (Point.new cols rows)
      (List.range i0) c hws hfacts
    obtain ⟨⟨hdp, hop, -, -⟩, -, hwritp, hunchp⟩ :=
      draw_line_aux_facts el st d (Point.new cols rows) (List.range i0) c cp hws hcp
    have hoobp : DisplayController.draw_item cp el (lineCell st d i0) =
        DrawOutcome.res cp (some DisplayControllerError.PositionOutOfRange) :=
      draw_item_oob cp el _ (by rw [hdp, hcd]; exact hbad)
    have hline : DisplayController.draw_line c el L st d =
        DrawOutcome.res cp (some DisplayControllerError.PositionOutOfRange) := by
      unfold DisplayController.draw_line
      rw [hsplit, draw_line_aux_append, hcp]
      show DisplayController.draw_line_aux el st d cp (i0 :: rest) = _
      simp only [DisplayController.draw_line_aux, hoobp]
    constructor
    · rw [hline]
      rfl
    · intro c' hc'
      rw [hline] at hc'
      simp only [DrawOutcome.res.injEq] at hc'
      obtain ⟨hcpc, -⟩ := hc'
      subst hcpc
      constructor
      · intro j hj
        exact hwritp j (List.mem_range.2 hj)
      · intro q hq
        exact hunchp q (fun j hj => hq j (List.mem_range.1 hj))

theorem C8_draw_line_witness :
    Map.getCell partialC.display (ctrl33.offset.add
      (lineCell (Point.new 1 1) Direction.Horizontal 0)) = some (some wEl) ∧
    (DisplayController.draw_line ctrl33 wEl 3 (Point.new 1 1)
      Direction.Horizontal).errOf =
      some (some DisplayControllerError.PositionOutOfRange) := by
  have hnew : (DisplayController.new t0 3 3 (Point.new 3 3)).1 = NewResult.ok ctrl33 := by
    decide
  have h := (C8_draw_line t0 3 3 (Point.new 3 3) ctrl33 wEl 3 (Point.new 1 1)
    Direction.Horizontal (by decide) (by decide) hnew).2 2 (by decide) (by decide)
    (by decide)
  have h2 := h.2 partialC (by decide)
  exact ⟨h2.1 0 (by decide), h.1⟩

theorem lineCell_H00 (i : Nat) (hi : i < U32) :
    lineCell (Point.new 0 0) Direction.Horizontal i = Point.new i 0 := by
  simp [lineCell, Point.addX, Point.new, Nat.mod_eq_of_lt hi]

theorem lineCell_V00 (j : Nat) (hj : j < U32) :
    lineCell (Point.new 0 0) Direction.Vertical j = Point.new 0 j := by
  simp [lineCell, Point.addY, Point.new, Nat.mod_eq_of_lt hj]

theorem lineCell_H0y (y i : Nat) (hi : i < U32) :
    lineCell (Point.new 0 y) Direction.Horizontal i = Point.new i y := by
  simp [lineCell, Point.addX, Point.new, Nat.mod_eq_of_lt hi]

theorem lineCell_Vx0 (x j : Nat) (hj : j < U32) :
    lineCell (Point.new x 0) Direction.Vertical j = Point.new x j := by
  simp [lineCell, Point.addY, Point.new, Nat.mod_eq_of_lt hj]

/-- C7: draw_rect with dimensions (w,h) at the local origin writes the
element to exactly the border cells of the rectangle - every cell of row 0,
row h-1, column 0 and column w-1 within local bounds - and leaves every
interior cell unwritten; it is the composition of four draw_line calls
(top, bottom, left, right). -/
theorem C7_draw_rect_border (t : Terminal) (cols rows : Nat) (dims : Point)
    (c c' : DisplayController) (el : Element) (w h : Nat)
    (hcols : cols < 65536) (hrows : rows < 65536)
    (hnew : (DisplayController.new t cols rows dims).1 = NewResult.ok c)
    (hw : 1 ≤ w) (hh : 1 ≤ h) (hwsz : w < 65536) (hhsz : h < 65536)
    (hrect : DisplayController.draw_rect c (Point.new 0 0) (Point.new w h) el =
      DrawOutcome.res c' none) :
    ∀ p : Point, p.x < w → p.y < h →
      ((p.x = 0 ∨ p.x = w - 1 ∨ p.y = 0 ∨ p.y = h - 1) →
        Map.getCell c'.display (c.offset.add p) = some (some el)) ∧
      ((p.x ≠ 0 ∧ p.x ≠ w - 1 ∧ p.y ≠ 0 ∧ p.y ≠ h - 1) →
        Map.getCell c'.display (c.offset.add p) =
          Map.getCell c.display (c.offset.add p)) := by
  obtain ⟨-, -, -, -, -, hws, -⟩ := new_ok_spec t cols rows dims c hnew
  have hU : (65536 : Nat) < U32 := by norm_num [U32]
  unfold DisplayController.draw_rect at hrect
  obtain ⟨c1, h1, hrest⟩ := andThen_eq_res_none _ _ _ hrect
  obtain ⟨c2, h2, hrest2⟩ := andThen_eq_res_none _ _ _ hrest
  obtain ⟨c3, h3, h4⟩ := andThen_eq_res_none _ _ _ hrest2
  have hst2 : (Point.new 0 0).addY (u32sub (Point.new w h).y 1) = Point.new 0 (h - 1) := by
    have he : u32sub (Point.new w h).y 1 = h - 1 :=
      u32sub_one h hh (Nat.lt_trans hhsz hU)
    rw [he]
    simp [Point.addY, Point.new, Nat.mod_eq_of_lt
      (show h - 1 < U32 from Nat.lt_trans (by omega) hU)]
  have hst4 : (Point.new 0 0).addX (u32sub (Point.new w h).x 1) = Point.new (w - 1) 0 := by
    have he : u32sub (Point.new w h).x 1 = w - 1 :=
      u32sub_one w hw (Nat.lt_trans hwsz hU)
    rw [he]
    simp [Point.addX, Point.new, Nat.mod_eq_of_lt
      (show w - 1 < U32 from Nat.lt_trans (by omega) hU)]
  rw [hst2] at h2
  rw [hst4] at h4
  unfold DisplayController.draw_line at h1 h2 h3 h4
  obtain ⟨⟨hd1, ho1, hs1, hws1⟩, -, hwrit1, hunch1⟩ :=
    draw_line_aux_facts _ _ _ (Point.new cols rows) _ _ _ hws h1
  obtain ⟨⟨hd2, ho2, hs2, hws2⟩, -, hwrit2, hunch2⟩ :=
    draw_line_aux_facts _ _ _ (Point.new cols rows) _ _ _ hws1 h2
  obtain ⟨⟨hd3, ho3, hs3, hws3⟩, -, hwrit3, hunch3⟩ :=
    draw_line_aux_facts _ _ _ (Point.new cols rows) _ _ _ hws2 h3
  obtain ⟨⟨hd4, ho4, hs4, hws4⟩, -, hwrit4, hunch4⟩ :=
    draw_line_aux_facts _ _ _ (Point.new cols rows) _ _ _ hws3 h4
  have ho2' : c2.offset = c.offset := ho2.trans ho1
  have ho3' : c3.offset = c.offset := ho3.trans ho2'
  rw [ho1] at hwrit2 hunch2
  rw [ho2'] at hwrit3 hunch3
  rw [ho3'] at hwrit4 hunch4
  intro p hpx hpy
  have hpxs : p.x < 65536 := Nat.lt_trans hpx hwsz
  have hpys : p.y < 65536 := Nat.lt_trans hpy hhsz
  have hcell1 : ∀ i, i < w → lineCell (Point.new 0 0) Direction.Horizontal i =
      Point.new i 0 :=
    fun i hi => lineCell_H00 i (Nat.lt_trans (Nat.lt_trans hi hwsz) hU)
  have hcell2 : ∀ i, i < w → lineCell (Point.new 0 (h - 1)) Direction.Horizontal i =
      Point.new i (h - 1) :=
    fun i hi => lineCell_H0y (h - 1) i (Nat.lt_trans (Nat.lt_trans hi hwsz) hU)
  have hcell3 : ∀ j, j < h → lineCell (Point.new 0 0) Direction.Vertical j =
      Point.new 0 j :=
    fun j hj => lineCell_V00 j (Nat.lt_trans (Nat.lt_trans hj hhsz) hU)
  have hcell4 : ∀ j, j < h → lineCell (Point.new (w - 1) 0) Direction.Vertical j =
      Point.new (w - 1) j :=
    fun j hj => lineCell_Vx0 (w - 1) j (Nat.lt_trans (Nat.lt_trans hj hhsz) hU)
  constructor
  · intro hborder
    by_cases hR : p.x = w - 1
    · have hmem : p.y ∈ List.range ((Point.new w h).y) := List.mem_range.2 hpy
      have hw4 := hwrit4 p.y hmem
      rw [hcell4 p.y hpy] at hw4
      have hpeq : Point.new (w - 1) p.y = p := by
        cases p
        simp only [Point.new, Point.mk.injEq]
        simp only at hR
        exact ⟨hR.symm, trivial⟩
      rw [hpeq] at hw4
      exact hw4
    · by_cases hL : p.x = 0
      · have hmem : p.y ∈ List.range ((Point.new w h).y) := List.mem_range.2 hpy
        have hw3 := hwrit3 p.y hmem
        rw [hcell3 p.y hpy] at hw3
        have hpeq : Point.new 0 p.y = p := by
          cases p
          simp only [Point.new, Point.mk.injEq]
          simp only at hL
          exact ⟨hL.symm, trivial⟩
        rw [hpeq] at hw3
        have hne4 : ∀ j ∈ List.range ((Point.new w h).y),
            c.offset.add p ≠ c.offset.add (lineCell (Point.new (w - 1) 0)
              Direction.Vertical j) := by
          intro j hj
          have hjh : j < h := List.mem_range.1 hj
          rw [hcell4 j hjh]
          exact offadd_ne c.offset p (Point.new (w - 1) j) hpxs hpys
            (by simp [Point.new] <;> omega) (Nat.lt_trans hjh hhsz)
            (fun heq => hR (congrArg Point.x heq))
        rw [hunch4 _ hne4]
        exact hw3
      · by_cases hB : p.y = h - 1
        · have hmem : p.x ∈ List.range ((Point.new w h).x) := List.mem_range.2 hpx
          have hw2 := hwrit2 p.x hmem
          rw [hcell2 p.x hpx] at hw2
          have hpeq : Point.new p.x (h - 1) = p := by
            cases p
            simp only [Point.new, Point.mk.injEq]
            simp only at hB
            exact ⟨trivial, hB.symm⟩
          rw [hpeq] at hw2
          have hne3 : ∀ j ∈ List.range ((Point.new w h).y),
              c.offset.add p ≠ c.offset.add (lineCell (Point.new 0 0)
                Direction.Vertical j) := by
            intro j hj
            have hjh : j < h := List.mem_range.1 hj
            rw [hcell3 j hjh]
            exact offadd_ne c.offset p (Point.new 0 j) hpxs hpys
              (by simp [Point.new] <;> omega) (Nat.lt_trans hjh hhsz)
              (fun heq => hL (congrArg Point.x heq))
          have hne4 : ∀ j ∈ List.range ((Point.new w h).y),
              c.offset.add p ≠ c.offset.add (lineCell (Point.new (w - 1) 0)
                Direction.Vertical j) := by
            intro j hj
            have hjh : j < h := List.mem_range.1 hj
            rw [hcell4 j hjh]
            exact offadd_ne c.offset p (Point.new (w - 1) j) hpxs hpys
              (by simp [Point.new] <;> omega) (Nat.lt_trans hjh hhsz)
              (fun heq => hR (congrArg Point.x heq))
          rw [hunch4 _ hne4, hunch3 _ hne3]
          exact hw2
        · by_cases hT : p.y = 0
          · have hmem : p.x ∈ List.range ((Point.new w h).x) := List.mem_range.2 hpx
            have hw1 := hwrit1 p.x hmem
            rw [hcell1 p.x hpx] at hw1
            have hpeq : Point.new p.x 0 = p := by
              cases p
              simp only [Point.new, Point.mk.injEq]
              simp only at hT
              exact ⟨trivial, hT.symm⟩
            rw [hpeq] at hw1
            have hne2 : ∀ i ∈ List.range ((Point.new w h).x),
                c.offset.add p ≠ c.offset.add (lineCell (Point.new 0 (h - 1))
                  Direction.Horizontal i) := by
              intro i hi
              have hiw : i < w := List.mem_range.1 hi
              rw [hcell2 i hiw]
              exact offadd_ne c.offset p (Point.new i (h - 1)) hpxs hpys
                (Nat.lt_trans hiw hwsz) (by simp [Point.new] <;> omega)
                (fun heq => hB (congrArg Point.y heq))
            have hne3 : ∀ j ∈ List.range ((Point.new w h).y),
                c.offset.add p ≠ c.offset.add (lineCell (Point.new 0 0)
                  Direction.Vertical j) := by
              intro j hj
              have hjh : j < h := List.mem_range.1 hj
              rw [hcell3 j hjh]
              exact offadd_ne c.offset p (Point.new 0 j) hpxs hpys
                (by simp [Point.new] <;> omega) (Nat.lt_trans hjh hhsz)
                (fun heq => hL (congrArg Point.x heq))
            have hne4 : ∀ j ∈ List.range ((Point.new w h).y),
                c.offset.add p ≠ c.offset.add (lineCell (Point.new (w - 1) 0)
                  Direction.Vertical j) := by
              intro j hj
              have hjh : j < h := List.mem_range.1 hj
              rw [hcell4 j hjh]
              exact offadd_ne c.offset p (Point.new (w - 1) j) hpxs hpys
                (by simp [Point.new] <;> omega) (Nat.lt_trans hjh hhsz)
                (fun heq => hR (congrArg Point.x heq))
            rw [hunch4 _ hne4, hunch3 _ hne3, hunch2 _ hne2]
            exact hw1
          · exfalso
            rcases hborder with hb | hb | hb | hb
            · exact hL hb
            · exact hR hb
            · exact hT hb
            · exact hB hb
  · rintro ⟨hL, hR, hT, hB⟩
    have hne1 : ∀ i ∈ List.range ((Point.new w h).x),
        c.offset.add p ≠ c.offset.add (lineCell (Point.new 0 0)
          Direction.Horizontal i) := by
      intro i hi
      have hiw : i < w := List.mem_range.1 hi
      rw [hcell1 i hiw]
      exact offadd_ne c.offset p (Point.new i 0) hpxs hpys
        (Nat.lt_trans hiw hwsz) (by simp [Point.new] <;> omega)
        (fun heq => hT (congrArg Point.y heq))
    have hne2 : ∀ i ∈ List.range ((Point.new w h).x),
        c.offset.add p ≠ c.offset.add (lineCell (Point.new 0 (h - 1))
          Direction.Horizontal i) := by
      intro i hi
      have hiw : i < w := List.mem_range.1 hi
      rw [hcell2 i hiw]
      exact offadd_ne c.offset p (Point.new i (h - 1)) hpxs hpys
        (Nat.lt_trans hiw hwsz) (by simp [Point.new] <;> omega)
        (fun heq => hB (congrArg Point.y heq))
    have hne3 : ∀ j ∈ List.range ((Point.new w h).y),
        c.offset.add p ≠ c.offset.add (lineCell (Point.new 0 0)
          Direction.Vertical j) := by
      intro j hj
      have hjh : j < h := List.mem_range.1 hj
      rw [hcell3 j hjh]
      exact offadd_ne c.offset p (Point.new 0 j) hpxs hpys
        (by simp [Point.new] <;> omega) (Nat.lt_trans hjh hhsz)
        (fun heq => hL (congrArg Point.x heq))
    have hne4 : ∀ j ∈ List.range ((Point.new w h).y),
        c.offset.add p ≠ c.offset.add (lineCell (Point.new (w - 1) 0)
          Direction.Vertical j) := by
      intro j hj
      have hjh : j < h := List.mem_range.1 hj
      rw [hcell4 j hjh]
      exact offadd_ne c.offset p (Point.new (w - 1) j) hpxs hpys
        (by simp [Point.new] <;> omega) (Nat.lt_trans hjh hhsz)
        (fun heq => hR (congrArg Point.x heq))
    rw [hunch4 _ hne4, hunch3 _ hne3, hunch2 _ hne2, hunch1 _ hne1]

theorem C7_draw_rect_border_witness :
    Map.getCell rectC.display (ctrl33.offset.add (Point.new 1 1)) =
      Map.getCell ctrl33.display (ctrl33.offset.add (Point.new 1 1)) ∧
    Map.getCell rectC.display (ctrl33.offset.add (Point.new 1 0)) = some (some wEl) := by
  have hnew : (DisplayController.new t0 3 3 (Point.new 3 3)).1 = NewResult.ok ctrl33 := by
    decide
  have h := C7_draw_rect_border t0 3 3 (Point.new 3 3) ctrl33 rectC wEl 3 3
    (by decide) (by decide) hnew (by decide) (by decide) (by decide) (by decide)
    (by decide)
  constructor
  · exact (h (Point.new 1 1) (by decide) (by decide)).2
      ⟨by decide, by decide, by decide, by decide⟩
  · exact (h (Point.new 1 0) (by decide) (by decide)).1 (Or.inr (Or.inr (Or.inl rfl)))

/-- C10: every Bullet constructed by Bullet::new(location) has drawable kind
DrawableType.Enemy (not a Projectile kind), a 1x1 layout whose single cell is
the caret arrow element, and its drawable location equal to the given spawn
location. -/
theorem C10_bullet_new (location : PointI) :
    (Bullet.new location).drawable.kind = DrawableType.Enemy ∧
    DrawableType.Enemy ≠ DrawableType.Projectile ∧
    (Bullet.new location).drawable.layout.dimensions = Point.new 1 1 ∧
    (Bullet.new location).drawable.layout.cells = [[some ARROW_ELEMENT]] ∧
    ARROW_ELEMENT.value = '^' ∧
    (Bullet.new location).drawable.location = location := by
  refine ⟨rfl, by decide, rfl, rfl, rfl, rfl⟩

/-- C5 as stated is false at a concrete input: the left handler on a fresh
player sets the velocity to (-2, 0), whose nonzero component is
WIDTH_MAX_VELOCITY = 2 - not a unit vector along the axis. -/
theorem C5_counterexample :
    (Player.new.left).drawable.velocity = PointI.new (-2) 0 ∧
    ¬((Player.new.left).drawable.velocity.width = 1 ∨
      (Player.new.left).drawable.velocity.width = -1) := by
  exact ⟨rfl, by decide⟩

/-- C5 amended: each direction handler sets the velocity to a fixed vector
along exactly one axis with the other component zero - up/down to
(0, -+HEIGHT_MAX_VELOCITY) of magnitude 1, left/right to
(-+WIDTH_MAX_VELOCITY, 0) of magnitude 2 (so the horizontal handlers are not
unit vectors) - the last-processed direction wins; and after an up input
followed by one frame tick, location.height decreases by
HEIGHT_MAX_VELOCITY = 1 while location.width is unchanged. -/
theorem C5_direction_handlers (p : Player) :
    (p.up).drawable.velocity = PointI.new 0 (-HEIGHT_MAX_VELOCITY) ∧
    (p.down).drawable.velocity = PointI.new 0 HEIGHT_MAX_VELOCITY ∧
    (p.left).drawable.velocity = PointI.new (-WIDTH_MAX_VELOCITY) 0 ∧
    (p.right).drawable.velocity = PointI.new WIDTH_MAX_VELOCITY 0 ∧
    HEIGHT_MAX_VELOCITY = 1 ∧ WIDTH_MAX_VELOCITY = 2 ∧
    ((p.up).left).drawable.velocity = PointI.new (-WIDTH_MAX_VELOCITY) 0 ∧
    (tick (p.up).drawable).location.height =
      p.drawable.location.height - HEIGHT_MAX_VELOCITY ∧
    (tick (p.up).drawable).location.width = p.drawable.location.width := by
  refine ⟨rfl, rfl, rfl, rfl, rfl, rfl, rfl, ?_, ?_⟩
  · show p.drawable.location.height + -HEIGHT_MAX_VELOCITY =
      p.drawable.location.height - HEIGHT_MAX_VELOCITY
    simp only [HEIGHT_MAX_VELOCITY]
    omega
  · show p.drawable.location.width + 0 = p.drawable.location.width
    omega

/-- C6: on the Enter (fire) event, additional_event_logic appends exactly one
new Bullet to the bullets pool, positioned at the player's location plus
(layout.width / 2 - 1, 1); the player's drawable state (location, velocity,
layout, kind) is unchanged; and any event other than the fire event leaves
the player, in particular the pool, untouched. -/
theorem C6_fire_spawns_bullet (p : Player) (ev : Event)
    (h2 : 2 ≤ p.drawable.layout.dimensions.x)
    (hsz : p.drawable.layout.dimensions.x < U32) :
    ((p.additional_event_logic (create_event KeyCode.Enter)).bullets.items =
      p.bullets.items ++
        [Bullet.new (PointI.new
          (p.drawable.location.width + (p.drawable.layout.dimensions.x / 2 - 1 : Nat))
          (p.drawable.location.height + 1))]) ∧
    ((p.additional_event_logic (create_event KeyCode.Enter)).drawable = p.drawable) ∧
    (ev ≠ create_event KeyCode.Enter → p.additional_event_logic ev = p) := by
  have h1 : 1 ≤ p.drawable.layout.dimensions.x / 2 := by omega
  have hlt : p.drawable.layout.dimensions.x / 2 < U32 :=
    Nat.lt_of_le_of_lt (Nat.div_le_self _ _) hsz
  have hsub : u32sub (p.drawable.layout.dimensions.x / 2) 1 =
      p.drawable.layout.dimensions.x / 2 - 1 :=
    u32sub_one _ h1 hlt
  refine ⟨?_, ?_, ?_⟩
  · unfold Player.additional_event_logic
    rw [if_pos rfl]
    simp [Spawnable.spawn, PointI.add_width, PointI.add_height, hsub, PointI.new]
  · unfold Player.additional_event_logic
    rw [if_pos rfl]
  · intro hne
    unfold Player.additional_event_logic
    rw [if_neg hne]

theorem C6_fire_spawns_bullet_witness :
    (Player.new.additional_event_logic (create_event KeyCode.Enter)).bullets.items =
      [Bullet.new (PointI.new 6 6)] := by
  have h := (C6_fire_spawns_bullet Player.new (create_event KeyCode.Esc)
    (by decide) (by decide)).1
  rw [h]
  decide

/-- C4 as stated is false at a concrete input: with the terminal fully set up
and a frame trace whose first frame panics, App::run returns Ok () - the
result caught by the panic barrier is bound to an unused variable and
dropped, so the panic is not propagated to the caller (teardown does run). -/
theorem C4_counterexample :
    (App.run (Terminal.mk true true true) [Iter.frame FrameOutcome.panics]).1 =
      RunOutcome.ret none ∧
    RunOutcome.ret none ≠ RunOutcome.panicked ∧
    (App.run (Terminal.mk true true true) [Iter.frame FrameOutcome.panics]).2 =
      Terminal.mk false false false := by
  exact ⟨rfl, by decide, rfl⟩

/-- C4 amended: when the per-frame closure panics during an iteration of
App::run, the catch_unwind barrier stops the unwinding and the teardown
(DisplayController::close via shut_down) still runs before run returns, so
the terminal leaves alternate-screen and raw mode; but the caught panic is
then discarded rather than propagated: run returns Ok (). -/
theorem C4_teardown_after_panic (t : Terminal) (iters : List Iter)
    (hp : (runLoop t iters).1 = LoopExit.panicked) :
    App.run t iters = (RunOutcome.ret none, Terminal.mk false false false) := by
  rfl

theorem C4_teardown_after_panic_witness :
    (runLoop (Terminal.mk true true true) [Iter.frame FrameOutcome.panics]).1 =
      LoopExit.panicked ∧
    App.run (Terminal.mk true true true) [Iter.frame FrameOutcome.panics] =
      (RunOutcome.ret none, Terminal.mk false false false) := by
  exact ⟨by decide, C4_teardown_after_panic (Terminal.mk true true true)
    [Iter.frame FrameOutcome.panics] (by decide)⟩

/-- C1: the claim states the spec's axis pairing (width against columns,
height against rows), but the source's check compares width against rows and
height against columns. At terminal columns = 20, rows = 40 with requested
play area 30x10, the spec's check demands DisplayTooSmallForDimensions, yet
the code passes its own check; the u32 offset subtraction (columns - width)
then wraps around, so the first border draw indexes the buffer row far out of
range and the constructor panics instead of returning the error. The square
50x50-against-40x40 scenario does fail with DisplayTooSmallForDimensions, and
App::new runs close before returning it, leaving the terminal out of both
alternate-screen and raw mode. -/
theorem C1_size_check_swapped :
    specTooSmall 20 40 (Point.new 30 10) = true ∧
    (App.new t0 20 40 (Point.new 30 10)).1 = AppNewResult.panicked ∧
    (App.new t0 40 40 (Point.new 50 50)).1 =
      AppNewResult.err DisplayControllerError.DisplayTooSmallForDimensions ∧
    (App.new t0 40 40 (Point.new 50 50)).2 = Terminal.mk false false false := by
  refine ⟨by decide, by rfl, by rfl, by rfl⟩

end Game
